import Mathlib

/-!
Verification of the core export engine of a Postgres-to-CSV job runner
(`src/main.py`): the cell classifier (`DataProcessor.process_cell`), the
image sink (`DataProcessor._save_image`), signature sniffing
(`_is_real_image`, `_get_image_extension`), the table-name deriver
(`extract_table_names`), unique CSV naming (`get_unique_csv_name`), the
fetch/export pair (`fetch_data`, `export_to_csv`) and the
spreadsheet-backed job loop (`main`).

External collaborators are modelled explicitly:
* the base64 decoder (`base64.b64decode`) is an arbitrary function
  `B64 = String → Except String (List Nat)`; a decoding exception is an
  `Except.error`;
* the database (psycopg2 connection/cursor) is a function
  `DB = String → Except String Cursor`: executing a query either raises
  (`Except.error`, covering connection and query errors) or yields a
  cursor holding the result rows and the column description;
* the `images/` directory is a list of `(path, content)` pairs (`FS`);
  creating a file conses an entry;
* `uuid.uuid4().hex` is an externally supplied stream of tokens
  `Nat → String` threaded through the run by a counter;
* the worksheet is a list of `JobRow` (cells `C` and `D` of rows
  2..max_row); an openpyxl cell value is `Option String` with Python
  truthiness;
* observable actions of `main` (invoking the row exporter, assigning a
  status cell, `wb.save`) are recorded in an event trace.

Bytes are modelled as `List Nat` (each element a byte value).  Python
code that can raise is modelled in `Except String`, with `try/except`
as a `match` on the result.
-/

/-! ## Cell classifier and image sink -/

/-- Model of the `images/` directory: files as `(path, content)` pairs,
most recently created first. -/
abbrev FS := List (String × List Nat)

/-- Model of `base64.b64decode`: an external decoder that either raises
(`Except.error`) or returns the decoded bytes. -/
abbrev B64 := String → Except String (List Nat)

/-- A database cell value, a closed variant of what psycopg2 can hand
back: SQL NULL, a binary payload (`bytes`/`memoryview`), text, or any
other scalar carried together with its `str()` rendering. -/
inductive Value where
  | null : Value
  | bytes (b : List Nat) : Value
  | str (s : String) : Value
  | other (t : String) : Value
deriving DecidableEq

/-- Model of `DataProcessor._is_real_image`: leading-byte signature sniffing.
PNG = `\x89PNG`, JPEG = `\xff\xd8\xff`, RIFF (classified webp) = `RIFF`. -/
def is_real_image (b : List Nat) : Bool :=
  [0x89, 0x50, 0x4E, 0x47].isPrefixOf b ||
  [0xFF, 0xD8, 0xFF].isPrefixOf b ||
  [0x52, 0x49, 0x46, 0x46].isPrefixOf b

/-- Model of `DataProcessor._get_image_extension`. -/
def get_image_extension (b : List Nat) : String :=
  if [0x89, 0x50, 0x4E, 0x47].isPrefixOf b then "png"
  else if [0xFF, 0xD8, 0xFF].isPrefixOf b then "jpg"
  else if [0x52, 0x49, 0x46, 0x46].isPrefixOf b then "webp"
  else "bin"

/-- Model of `DataProcessor._save_image`: writes `images/{column}_{token}.{ext}`
and returns the path.  The uuid token is supplied externally. -/
def save_image (b : List Nat) (column_name tok : String) (fs : FS) : String × FS :=
  let ext := get_image_extension b
  let path := "images/" ++ (column_name ++ "_" ++ tok ++ "." ++ ext)
  (path, (path, b) :: fs)

/-- One lowercase hex digit, as produced by Python `bytes.hex()`. -/
def hexDigit (n : Nat) : Char :=
  if n < 10 then Char.ofNat (48 + n) else Char.ofNat (87 + n)

/-- Python `bytes.hex()`: two lowercase hex digits per byte. -/
def bytesHex (b : List Nat) : String :=
  String.mk (b.flatMap fun x => [hexDigit (x / 16), hexDigit (x % 16)])

/-- Inverse reading of a lowercase hex digit. -/
def hexVal (c : Char) : Option Nat :=
  if '0' ≤ c ∧ c ≤ '9' then some (c.toNat - 48)
  else if 'a' ≤ c ∧ c ≤ 'f' then some (c.toNat - 87)
  else none

/-- Hex-decoding of a character list, two digits per byte. -/
def hexDecode : List Char → Option (List Nat)
  | [] => some []
  | [_] => none
  | c1 :: c2 :: rest => do
      let h ← hexVal c1
      let l ← hexVal c2
      let t ← hexDecode rest
      some ((16 * h + l) :: t)

/-- Hex-decoding of a string. -/
def hexDecodeS (s : String) : Option (List Nat) := hexDecode s.data

/-- Python `str.startswith`. -/
def strStartsWith (s pre : String) : Bool := pre.data.isPrefixOf s.data

/-- The tail of `value.split(",", 1)`: everything after the first comma,
`none` when there is no comma (in which case indexing `[1]` raises). -/
def afterFirstComma : List Char → Option (List Char)
  | [] => none
  | c :: cs => if c = ',' then some cs else afterFirstComma cs

/-- Model of `base64.b64decode(value.split(",", 1)[1])`: the payload extraction
and decoding inside the `try` of `process_cell`; `Except.error` is a
raised `IndexError` or decoding exception. -/
def dataImagePayload (b64 : B64) (s : String) : Except String (List Nat) :=
  match afterFirstComma s.data with
  | none => Except.error "IndexError"
  | some payload => b64 (String.mk payload)

/-- Model of `DataProcessor.process_cell`.  The result is `Except.ok` of the cell
string and the (possibly grown) images directory; an `Except.error`
would be an exception escaping the method. -/
def process_cell (b64 : B64) (v : Value) (column_name tok : String) (fs : FS) :
    Except String (String × FS) :=
  match v with
  | .null => .ok ("", fs)
  | .bytes b =>
      if is_real_image b then .ok (save_image b column_name tok fs)
      else .ok (bytesHex b, fs)
  | .str s =>
      if strStartsWith s "data:image" then
        match dataImagePayload b64 s with
        | .ok img =>
            if is_real_image img then .ok (save_image img column_name tok fs)
            else .ok (s, fs)
        | .error _ => .ok (s, fs)
      else .ok (s, fs)
  | .other t => .ok (t, fs)

/-! ## Table-name deriver (`extract_table_names`)

The source scans the query with the regular expression
`(?:FROM|JOIN)\s+([a-zA-Z0-9_."]+)` (IGNORECASE) via `re.findall`,
which returns the group-1 captures of all non-overlapping matches
found scanning left to right.  The scanner below mirrors that: at each
position try the alternation (case-insensitively), then one or more
whitespace characters, then a greedy non-empty run of word characters;
on success continue after the match, on failure advance one character.
(`\s` is modelled by its ASCII members.) -/

/-- A character of the capture class `[a-zA-Z0-9_."]`. -/
def reWordChar (c : Char) : Bool :=
  c.isAlphanum || c = '_' || c = '.' || c = '"'

/-- An ASCII `\s` character. -/
def reSpace (c : Char) : Bool :=
  c = ' ' || c = '\t' || c = '\n' || c = '\r' || c = '\x0b' || c = '\x0c'

/-- Case-insensitive character comparison against a lowercase letter. -/
def lcEq (c k : Char) : Bool := c.toLower = k

/-- Match the alternation `(?:FROM|JOIN)` case-insensitively at the head
of the input, returning the remainder on success. -/
def matchKw : List Char → Option (List Char)
  | c1 :: c2 :: c3 :: c4 :: rest =>
      if (lcEq c1 'f' && lcEq c2 'r' && lcEq c3 'o' && lcEq c4 'm') ||
         (lcEq c1 'j' && lcEq c2 'o' && lcEq c3 'i' && lcEq c4 'n') then
        some rest
      else none
  | _ => none

/-- Attempt a full match of the pattern at the head of the input,
returning the group-1 capture and the remainder after the match. -/
def tryMatch (cs : List Char) : Option (List Char × List Char) :=
  match matchKw cs with
  | none => none
  | some rest =>
      let (ws, rest2) := rest.span reSpace
      if ws.isEmpty then none
      else
        let (word, rest3) := rest2.span reWordChar
        if word.isEmpty then none else some (word, rest3)

/-- The `re.findall` scanning loop.  The fuel is the input length; each
successful match consumes at least one character of input together with
one unit of fuel, so the fuel never runs out. -/
def findallAux : Nat → List Char → List (List Char)
  | 0, _ => []
  | _ + 1, [] => []
  | fuel + 1, c :: cs =>
      match tryMatch (c :: cs) with
      | some (word, rest) => word :: findallAux fuel rest
      | none => findallAux fuel cs

/-- The group-1 captures of
`re.findall(r"(?:FROM|JOIN)\s+([a-zA-Z0-9_.\x22]+)", query, re.IGNORECASE)`. -/
def table_captures (q : String) : List String :=
  (findallAux q.data.length q.data).map String.mk

/-- Python `t.replace('\x22', "").split(".")[-1]`: strip double quotes, keep the
last dot-separated segment. -/
def clean_table (t : String) : String :=
  String.mk (((t.data.filter fun c => c ≠ '"').reverse.takeWhile fun c => c ≠ '.').reverse)

/-- Python string comparison: lexicographic by code points (executable
form of the `<` of `LinearOrder String`). -/
def strLt (a b : String) : Bool := decide (a.data < b.data)

/-- Insert a string into a strictly sorted list, skipping duplicates. -/
def sortedInsert (s : String) : List String → List String
  | [] => [s]
  | t :: ts =>
      if s = t then t :: ts
      else if strLt s t then s :: t :: ts
      else t :: sortedInsert s ts

/-- Python `sorted({...})`: the strictly sorted list of the distinct
elements. -/
def sorted_set (l : List String) : List String := l.foldr sortedInsert []

/-- Model of `DataProcessor.extract_table_names`. -/
def extract_table_names (q : String) : String :=
  let tables := table_captures q
  let clean_tables := sorted_set (tables.map clean_table)
  if clean_tables.isEmpty then "result"
  else String.intercalate "_" clean_tables

/-! ## Unique CSV naming (`get_unique_csv_name`)

The source probes `output/<name>.csv` for existence; `files` is the
list of base names currently present in `output/`.  The Python loop
increments a counter until a free name is found; `files.length + 1`
probes always suffice, so the fuel below never runs out. -/

/-- The `while True` counter loop of `get_unique_csv_name`. -/
def uniqueNameAux (files : List String) (base_name : String) : Nat → Nat → String
  | 0, counter => base_name ++ "_" ++ toString counter
  | fuel + 1, counter =>
      let new_name := base_name ++ "_" ++ toString counter
      if new_name ∈ files then uniqueNameAux files base_name fuel (counter + 1)
      else new_name

/-- Model of `get_unique_csv_name`: the base name if free, else the first
`base_1`, `base_2`, … not already present. -/
def get_unique_csv_name (files : List String) (base_name : String) : String :=
  if base_name ∈ files then uniqueNameAux files base_name (files.length + 1) 1
  else base_name

/-! ## Fetch and export (`fetch_data`, `export_to_csv`) -/

/-- A psycopg2 cursor after `execute`: the `description` (a tuple per
column whose first component is the name) and the result rows. -/
structure Cursor where
  description : List (String × String)
  rows : List (List Value)
deriving DecidableEq

/-- The database collaborator: executing a query either raises
(connection/query error) or yields a cursor. -/
abbrev DB := String → Except String Cursor

/-- One observable interaction with the cursor. -/
inductive FetchEvent where
  /-- `cur.fetchall()`, returning all remaining rows at once. -/
  | fetchall (returned : Nat) : FetchEvent
  /-- `cur.fetchmany(size)` (never issued by this code; the vocabulary
  in which the batching claim is stated). -/
  | fetchmany (size : Nat) (returned : Nat) : FetchEvent
deriving DecidableEq

/-- Model of `DataProcessor.fetch_data`: execute the query, then
`cur.fetchall()` and the column names from `cur.description`.  Also
returns the trace of cursor interactions. -/
def fetch_data (db : DB) (query : String) :
    Except String ((List (List Value) × List String) × List FetchEvent) :=
  match db query with
  | .error e => .error e
  | .ok cur =>
      .ok ((cur.rows, cur.description.map Prod.fst),
           [FetchEvent.fetchall cur.rows.length])

/-- The inner list comprehension of `export_to_csv`: classify each cell
of one row positionally against the column names, threading the images
directory and the uuid counter. -/
def exportCells (b64 : B64) (toks : Nat → String) (columns : List String) :
    List Value → Nat → Nat → FS → Except String (List String × FS × Nat)
  | [], _, k, fs => .ok ([], fs, k)
  | v :: vs, idx, k, fs =>
      match process_cell b64 v (columns.getD idx "") (toks k) fs with
      | .error e => .error e
      | .ok (s, fs') =>
          match exportCells b64 toks columns vs (idx + 1) (k + 1) fs' with
          | .error e => .error e
          | .ok (ss, fs'', k') => .ok (s :: ss, fs'', k')

/-- The row loop of `export_to_csv`. -/
def exportRows (b64 : B64) (toks : Nat → String) (columns : List String) :
    List (List Value) → Nat → FS → Except String (List (List String) × FS × Nat)
  | [], k, fs => .ok ([], fs, k)
  | row :: rows, k, fs =>
      match exportCells b64 toks columns row 0 k fs with
      | .error e => .error e
      | .ok (line, fs', k') =>
          match exportRows b64 toks columns rows k' fs' with
          | .error e => .error e
          | .ok (lines, fs'', k'') => .ok (line :: lines, fs'', k'')

/-- Model of `DataProcessor.export_to_csv`: the CSV content as a list of
records, header (the column names) first, one record per result row. -/
def export_to_csv (b64 : B64) (toks : Nat → String) (columns : List String)
    (rows : List (List Value)) (k : Nat) (fs : FS) :
    Except String (List (List String) × FS × Nat) :=
  match exportRows b64 toks columns rows k fs with
  | .error e => .error e
  | .ok (lines, fs', k') => .ok (columns :: lines, fs', k')

/-! ## The spreadsheet-backed job loop (`main`) -/

/-- One worksheet row of the job sheet: the query cell `C` and the
status/csv-name cell `D`.  An openpyxl cell value is `none` when the
cell is empty. -/
structure JobRow where
  query : Option String
  status : Option String
deriving DecidableEq

/-- Python truthiness of a cell value: `None` and `""` are falsy. -/
def truthy : Option String → Bool
  | none => false
  | some s => s != ""

/-- The guard `if not query or csv_cell.value: continue` does not skip
this row: the row is pending. -/
def pending (r : JobRow) : Bool :=
  !(!(truthy r.query) || truthy r.status)

/-- State outside the worksheet that the loop reads and writes: the
base names present in `output/`, the `images/` directory, and the uuid
counter. -/
structure World where
  files : List String
  images : FS
  tokCounter : Nat
deriving DecidableEq

/-- An observable action of `main`. -/
inductive Event where
  /-- `wb.save(excel_file)`. -/
  | save : Event
  /-- invoking the row exporter (`fetch_data` + `export_to_csv`) for an
  output name. -/
  | exportEv (csvName : String) : Event
  /-- assigning `csv_cell.value` on worksheet row `idx`. -/
  | statusWrite (idx : Nat) (value : String) : Event
deriving DecidableEq

/-- One iteration of the `main` loop on worksheet row `idx`: skip
settled rows; otherwise derive and uniquify the name, run the row
exporter inside `try`, and record the terminal status in cell `D`.
Returns the updated row, the updated world state, and the events in
order. -/
def processRow (b64 : B64) (toks : Nat → String) (db : DB) (w : World) (idx : Nat)
    (r : JobRow) : JobRow × World × List Event :=
  if !(truthy r.query) || truthy r.status then (r, w, [])
  else
    let query := r.query.getD ""
    let base_csv_name := extract_table_names query
    let csv_name := get_unique_csv_name w.files base_csv_name
    match fetch_data db query with
    | .error e =>
        ({ r with status := some ("ERROR: " ++ e) }, w,
         [Event.statusWrite idx ("ERROR: " ++ e)])
    | .ok ((data, columns), _) =>
        match export_to_csv b64 toks columns data w.tokCounter w.images with
        | .error e =>
            ({ r with status := some ("ERROR: " ++ e) }, w,
             [Event.statusWrite idx ("ERROR: " ++ e)])
        | .ok (_, images', tok') =>
            ({ r with status := some (csv_name ++ ".csv") },
             { files := csv_name :: w.files, images := images', tokCounter := tok' },
             [Event.exportEv csv_name, Event.statusWrite idx (csv_name ++ ".csv")])

/-- The `for row in range(2, sheet.max_row + 1)` loop. -/
def runRows (b64 : B64) (toks : Nat → String) (db : DB) :
    World → Nat → List JobRow → List JobRow × World × List Event
  | w, _, [] => ([], w, [])
  | w, idx, r :: rs =>
      let (r', w', es) := processRow b64 toks db w idx r
      let (rs', w'', es') := runRows b64 toks db w' (idx + 1) rs
      (r' :: rs', w'', es ++ es')

/-- Model of `main` after startup: run the loop over worksheet rows 2.., then
`wb.save(excel_file)` once. -/
def main_run (b64 : B64) (toks : Nat → String) (db : DB) (w : World)
    (rows : List JobRow) : List JobRow × World × List Event :=
  let (rows', w', es) := runRows b64 toks db w 2 rows
  (rows', w', es ++ [Event.save])

/-- Concrete decoder that always raises, for witnesses. -/
def b64fail : B64 := fun _ => Except.error "binascii.Error"

/-- Concrete decoder that succeeds with non-image bytes, for witnesses. -/
def b64plain : B64 := fun _ => Except.ok [1, 2, 3]

/-- Concrete uuid stream for witnesses. -/
def toksDef : Nat → String := fun n => "tok" ++ toString n

/-- Empty world state for witnesses. -/
def w0 : World := { files := [], images := [], tokCounter := 0 }

/-- Database for witnesses: one query succeeds with a single text row,
the query `"Q1"` raises `boom`. -/
def dbOk : DB := fun q =>
  if q = "Q1" then Except.error "boom"
  else Except.ok { description := [("id", "int4")], rows := [[Value.other "1"]] }

/-- Is this event a workbook persist? -/
def isSave : Event → Bool
  | Event.save => true
  | _ => false

/-- Is this event a `Processing` status assignment? -/
def isProcessingWrite : Event → Bool
  | Event.statusWrite _ v => v == "Processing"
  | _ => false

/-- The reading that the batching claim gives to one cursor interaction: a
`fetchmany` of size 5000 returning at most 5000 rows. -/
def isBoundedBatch : FetchEvent → Bool
  | FetchEvent.fetchmany sz r => sz == 5000 && decide (r ≤ 5000)
  | FetchEvent.fetchall _ => false

/-- A cursor holding 5001 one-cell rows. -/
def cursor5001 : Cursor :=
  { description := [("id", "int4")], rows := List.replicate 5001 [Value.null] }

/-- Database returning 5001 rows for every query. -/
def db5001 : DB := fun _ => Except.ok cursor5001

/-! ## Evaluation checks -/

example : bytesHex [1, 2] = "0102" := by decide
example : bytesHex [255, 16] = "ff10" := by decide
example : is_real_image [0x89, 0x50, 0x4E, 0x47, 0] = true := by decide
example : hexDecodeS "ff10" = some [255, 16] := by decide

example : extract_table_names "SELECT 1" = "result" := by decide
example : extract_table_names "select * from a join b.c join a" = "a_c" := by decide
example :
    extract_table_names "SELECT id, photo FROM \"Users\" u JOIN orders o ON u.id = o.user_id" =
      "Users_orders" := by decide

example : get_unique_csv_name [] "result" = "result" := by decide
example : get_unique_csv_name ["result", "result_1"] "result" = "result_2" := by decide

example :
    main_run b64fail toksDef dbOk w0 [{ query := some "SELECT 1", status := none }] =
      ([{ query := some "SELECT 1", status := some "result.csv" }],
       { files := ["result"], images := [], tokCounter := 1 },
       [Event.exportEv "result", Event.statusWrite 2 "result.csv", Event.save]) := by decide

/-! ## Lemmas about the table-name deriver -/

/-- The comparison `strLt` decides the lexicographic string order. -/
lemma strLt_iff (a b : String) : strLt a b = true ↔ a < b := by
  rw [String.lt_iff_toList_lt]
  simp [strLt, String.toList]

/-- Membership in `sortedInsert`. -/
lemma mem_sortedInsert (a s : String) (l : List String) :
    a ∈ sortedInsert s l ↔ a = s ∨ a ∈ l := by
  induction l with
  | nil => simp [sortedInsert]
  | cons t ts ih =>
      by_cases h1 : s = t
      · subst h1
        simp [sortedInsert]
      · by_cases h2 : strLt s t = true
        · simp [sortedInsert, h1, h2]
        · simp only [sortedInsert, if_neg h1, h2, Bool.false_eq_true, if_false,
            List.mem_cons, ih]
          tauto

/-- Insertion by `sortedInsert` preserves strict sortedness. -/
lemma sorted_sortedInsert (s : String) (l : List String) (h : l.Sorted (· < ·)) :
    (sortedInsert s l).Sorted (· < ·) := by
  induction l with
  | nil => simp [sortedInsert]
  | cons t ts ih =>
      rw [List.sorted_cons] at h
      obtain ⟨ht, hts⟩ := h
      by_cases h1 : s = t
      · subst h1
        simp only [sortedInsert, if_pos rfl]
        exact List.sorted_cons.mpr ⟨ht, hts⟩
      · by_cases h2 : strLt s t = true
        · have hst : s < t := (strLt_iff s t).mp h2
          simp only [sortedInsert, if_neg h1, if_pos h2]
          rw [List.sorted_cons]
          refine ⟨?_, List.sorted_cons.mpr ⟨ht, hts⟩⟩
          intro b hb
          rcases List.mem_cons.mp hb with rfl | hb'
          · exact hst
          · exact lt_trans hst (ht b hb')
        · have hts' : t < s := by
            have h2' : ¬s < t := fun hlt => h2 ((strLt_iff s t).mpr hlt)
            exact lt_of_le_of_ne (le_of_not_lt h2') (Ne.symm h1)
          simp only [sortedInsert, if_neg h1, h2, Bool.false_eq_true, if_false]
          rw [List.sorted_cons]
          refine ⟨?_, ih hts⟩
          intro b hb
          rcases (mem_sortedInsert b s ts).mp hb with rfl | hb'
          · exact hts'
          · exact ht b hb'

/-- Membership in `sorted_set`. -/
lemma mem_sorted_set (a : String) (l : List String) : a ∈ sorted_set l ↔ a ∈ l := by
  induction l with
  | nil => simp [sorted_set]
  | cons x xs ih =>
      show a ∈ sortedInsert x (sorted_set xs) ↔ _
      rw [mem_sortedInsert, ih]
      simp

/-- The result of `sorted_set` is strictly sorted. -/
lemma sorted_sorted_set (l : List String) : (sorted_set l).Sorted (· < ·) := by
  induction l with
  | nil => simp [sorted_set]
  | cons x xs ih => exact sorted_sortedInsert x _ ih

/-! ## Lemmas about the classifier -/

/-- Function `hexVal` inverts `hexDigit` on digit values. -/
lemma hexVal_hexDigit : ∀ n < 16, hexVal (hexDigit n) = some n := by decide

/-- Every digit character emitted by `hexDigit` is lowercase hex. -/
lemma hexDigit_mem_alphabet : ∀ n < 16, hexDigit n ∈ "0123456789abcdef".data := by decide

/-- Hex-decoding inverts `bytesHex` on byte lists. -/
lemma hexDecode_bytesHex : ∀ b : List Nat, (∀ x ∈ b, x < 256) →
    hexDecode (b.flatMap fun x => [hexDigit (x / 16), hexDigit (x % 16)]) = some b := by
  intro b
  induction b with
  | nil => intro _; rfl
  | cons x xs ih =>
      intro hb
      have hx : x < 256 := hb x (by simp)
      have h1 : x / 16 < 16 := by omega
      have h2 : x % 16 < 16 := by omega
      have htail := ih (fun y hy => hb y (List.mem_cons_of_mem x hy))
      show hexDecode (hexDigit (x / 16) :: hexDigit (x % 16) ::
          (xs.flatMap fun y => [hexDigit (y / 16), hexDigit (y % 16)])) = some (x :: xs)
      simp [hexDecode, hexVal_hexDigit _ h1, hexVal_hexDigit _ h2, htail, Nat.div_add_mod]

/-- Totality: `process_cell` never lets an exception escape: the `try/except`
covers all raising operations. -/
lemma process_cell_ok (b64 : B64) (v : Value) (col tok : String) (fs : FS) :
    ∃ r, process_cell b64 v col tok fs = Except.ok r := by
  cases v with
  | null => exact ⟨("", fs), rfl⟩
  | bytes b =>
      by_cases h : is_real_image b = true
      · exact ⟨save_image b col tok fs, by simp [process_cell, h]⟩
      · exact ⟨(bytesHex b, fs), by simp [process_cell, h]⟩
  | str s =>
      by_cases h : strStartsWith s "data:image" = true
      · match hd : dataImagePayload b64 s with
        | .error e => exact ⟨(s, fs), by simp [process_cell, h, hd]⟩
        | .ok img =>
            by_cases hi : is_real_image img = true
            · exact ⟨save_image img col tok fs, by simp [process_cell, h, hd, hi]⟩
            · exact ⟨(s, fs), by simp [process_cell, h, hd, hi]⟩
      · exact ⟨(s, fs), by simp [process_cell, h]⟩
  | other t => exact ⟨(t, fs), rfl⟩

/-- C5: For every binary (bytes) cell value whose leading bytes match a
known image signature (PNG `89 50 4E 47`, JPEG `FF D8 FF`, RIFF prefix
classified webp), the classifier returns the path of the file saved by
the image sink and that file contains exactly the original bytes; for
every binary value matching no signature, it returns the exact
lowercase hexadecimal encoding of the bytes (recoverable by
hex-decoding) and creates no file. -/
theorem process_cell_bytes_spec (b64 : B64) (b : List Nat) (col tok : String) (fs : FS) :
    (is_real_image b = true →
      process_cell b64 (Value.bytes b) col tok fs =
        Except.ok ("images/" ++ (col ++ "_" ++ tok ++ "." ++ get_image_extension b),
          ("images/" ++ (col ++ "_" ++ tok ++ "." ++ get_image_extension b), b) :: fs)) ∧
    (is_real_image b = false →
      process_cell b64 (Value.bytes b) col tok fs = Except.ok (bytesHex b, fs) ∧
      ((∀ x ∈ b, x < 256) →
        hexDecodeS (bytesHex b) = some b ∧
        ∀ c ∈ (bytesHex b).data, c ∈ "0123456789abcdef".data)) := by
  refine ⟨fun h => by simp [process_cell, h, save_image], fun h => ⟨by simp [process_cell, h], ?_⟩⟩
  intro hb
  refine ⟨hexDecode_bytesHex b hb, ?_⟩
  intro c hc
  simp only [bytesHex, String.mk, List.mem_flatMap] at hc
  obtain ⟨x, hx, hcx⟩ := hc
  have h16 : x / 16 < 16 ∧ x % 16 < 16 := by
    have := hb x hx
    omega
  rcases List.mem_cons.mp hcx with h' | h'
  · exact h' ▸ hexDigit_mem_alphabet _ h16.1
  · rcases List.mem_cons.mp h' with h'' | h''
    · exact h'' ▸ hexDigit_mem_alphabet _ h16.2
    · exact absurd h'' (List.not_mem_nil _)

/-- C5 witness: a PNG-signature payload is saved verbatim and its path
returned; a non-signature payload is hex-encoded, decodably. -/
theorem process_cell_bytes_spec_witness :
    process_cell b64fail (Value.bytes [137, 80, 78, 71, 7]) "photo" "t" [] =
      Except.ok ("images/photo_t.png", [("images/photo_t.png", [137, 80, 78, 71, 7])]) ∧
    process_cell b64fail (Value.bytes [1, 2]) "c" "t" [] = Except.ok ("0102", []) ∧
    hexDecodeS "0102" = some [1, 2] :=
  ⟨(process_cell_bytes_spec b64fail [137, 80, 78, 71, 7] "photo" "t" []).1 (by decide),
   ((process_cell_bytes_spec b64fail [1, 2] "c" "t" []).2 (by decide)).1,
   (((process_cell_bytes_spec b64fail [1, 2] "c" "t" []).2 (by decide)).2 (by decide)).1⟩

/-- C6: For every text cell beginning with `data:image` whose base64
payload fails to decode (including a raised decode exception), the
classifier returns the original text unchanged and creates no file —
the error is caught inside the classifier; if the payload decodes but
matches no image signature, the original text is likewise returned
unchanged (never hex-encoded). -/
theorem process_cell_dataimage_fallback (b64 : B64) (s col tok : String) (fs : FS)
    (hpre : strStartsWith s "data:image" = true) :
    (∀ e, dataImagePayload b64 s = Except.error e →
      process_cell b64 (Value.str s) col tok fs = Except.ok (s, fs)) ∧
    (∀ img, dataImagePayload b64 s = Except.ok img → is_real_image img = false →
      process_cell b64 (Value.str s) col tok fs = Except.ok (s, fs)) := by
  constructor
  · intro e he
    simp [process_cell, hpre, he]
  · intro img himg hni
    simp [process_cell, hpre, himg, hni]

/-- C6 witness: garbage after `data:image…base64,` falls back to the
original text with no file created, both when the decoder raises and
when it yields non-image bytes. -/
theorem process_cell_dataimage_fallback_witness :
    process_cell b64fail (Value.str "data:image/png;base64,@@") "c" "t" [] =
      Except.ok ("data:image/png;base64,@@", []) ∧
    process_cell b64plain (Value.str "data:image/png;base64,AAAA") "c" "t" [] =
      Except.ok ("data:image/png;base64,AAAA", []) :=
  ⟨(process_cell_dataimage_fallback b64fail "data:image/png;base64,@@" "c" "t" []
      (by decide)).1 "binascii.Error" rfl,
   (process_cell_dataimage_fallback b64plain "data:image/png;base64,AAAA" "c" "t" []
      (by decide)).2 [1, 2, 3] rfl (by decide)⟩

/-- C9: the classifier is total over its public interface: for every
input value — null, arbitrary bytes, any string (with or without a
comma after `data:image`), any other scalar — and every decoder
behaviour, it returns a string without raising. -/
theorem process_cell_total (b64 : B64) (v : Value) (col tok : String) (fs : FS) :
    ∃ r, process_cell b64 v col tok fs = Except.ok r :=
  process_cell_ok b64 v col tok fs

/-- The extension chosen for a sniffed image is one of the three image
extensions. -/
lemma ext_of_real_image (b : List Nat) (h : is_real_image b = true) :
    get_image_extension b ∈ (["png", "jpg", "webp"] : List String) := by
  unfold get_image_extension
  by_cases h1 : [0x89, 0x50, 0x4E, 0x47].isPrefixOf b = true
  · simp [h1]
  · by_cases h2 : [0xFF, 0xD8, 0xFF].isPrefixOf b = true
    · simp [h1, h2]
    · by_cases h3 : [0x52, 0x49, 0x46, 0x46].isPrefixOf b = true
      · simp [h1, h2, h3]
      · exfalso
        unfold is_real_image at h
        simp [h1, h2, h3] at h

/-- None of the three image extensions is `bin`. -/
lemma mem_extensions_ne_bin : ∀ e ∈ (["png", "jpg", "webp"] : List String), e ≠ "bin" := by
  decide

/-- C10: every file created by the image sink during a classifier call
has extension `png`, `jpg` or `webp`; the `bin` branch of the extension
chooser is unreachable because the sink only runs after the signature
check succeeded, so no `.bin` file is produced. -/
theorem image_sink_extension_spec (b64 : B64) (v : Value) (col tok : String) (fs : FS)
    (r : String × FS) (h : process_cell b64 v col tok fs = Except.ok r) :
    (∀ p c, (p, c) ∈ r.2 → (p, c) ∉ fs →
      ∃ e, e ∈ (["png", "jpg", "webp"] : List String) ∧ e ≠ "bin" ∧
        p = "images/" ++ (col ++ "_" ++ tok ++ "." ++ e)) ∧
    (∀ b, is_real_image b = true → get_image_extension b ≠ "bin") := by
  constructor
  · intro p c hmem hnew
    cases v with
    | null =>
        exfalso; apply hnew
        simp only [process_cell, Except.ok.injEq] at h
        rw [← h] at hmem; exact hmem
    | bytes b =>
        by_cases hb : is_real_image b = true
        · have hext := ext_of_real_image b hb
          refine ⟨get_image_extension b, hext, mem_extensions_ne_bin _ hext, ?_⟩
          simp only [process_cell, hb, if_true, save_image, Except.ok.injEq] at h
          rw [← h] at hmem
          rcases List.mem_cons.mp hmem with h' | h'
          · exact congrArg Prod.fst h'
          · exact absurd h' hnew
        · exfalso; apply hnew
          simp only [process_cell, hb, Bool.false_eq_true, if_false, Except.ok.injEq] at h
          rw [← h] at hmem; exact hmem
    | str s =>
        by_cases hs : strStartsWith s "data:image" = true
        · match hd : dataImagePayload b64 s with
          | .error e =>
              exfalso; apply hnew
              simp only [process_cell, hs, if_true, hd, Except.ok.injEq] at h
              rw [← h] at hmem; exact hmem
          | .ok img =>
              by_cases hi : is_real_image img = true
              · have hext := ext_of_real_image img hi
                refine ⟨get_image_extension img, hext, mem_extensions_ne_bin _ hext, ?_⟩
                simp only [process_cell, hs, if_true, hd, hi, save_image,
                  Except.ok.injEq] at h
                rw [← h] at hmem
                rcases List.mem_cons.mp hmem with h' | h'
                · exact congrArg Prod.fst h'
                · exact absurd h' hnew
              · exfalso; apply hnew
                simp only [process_cell, hs, if_true, hd, hi, Bool.false_eq_true,
                  if_false, Except.ok.injEq] at h
                rw [← h] at hmem; exact hmem
        · exfalso; apply hnew
          simp only [process_cell, hs, Bool.false_eq_true, if_false, Except.ok.injEq] at h
          rw [← h] at hmem; exact hmem
    | other t =>
        exfalso; apply hnew
        simp only [process_cell, Except.ok.injEq] at h
        rw [← h] at hmem; exact hmem
  · intro b hb
    exact mem_extensions_ne_bin _ (ext_of_real_image b hb)

/-- C10 witness: a PNG payload goes through the sink with a non-`bin`
extension. -/
theorem image_sink_extension_spec_witness :
    is_real_image [137, 80, 78, 71] = true ∧ get_image_extension [137, 80, 78, 71] ≠ "bin" :=
  ⟨by decide,
   (image_sink_extension_spec b64fail (Value.bytes [137, 80, 78, 71]) "photo" "t" []
      ("images/photo_t.png", [("images/photo_t.png", [137, 80, 78, 71])])
      rfl).2 [137, 80, 78, 71] (by decide)⟩

/-- C7 counterexample: on the query `SELECT id, photo FROM "Users" u
JOIN orders o ON …` the deriver does not return `orders_users`: it
never lowercases, and Python sorts by code point, so `"Users"` (capital
`U`, 85) precedes `"orders"` (111). -/
theorem extract_table_names_join_query_cex :
    extract_table_names "SELECT id, photo FROM \"Users\" u JOIN orders o ON u.id = o.user_id" ≠
      "orders_users" := by decide

/-- C7 (amended): on the query `SELECT id, photo FROM "Users" u JOIN
orders o ON …` the deriver returns `Users_orders` (quotes stripped,
case preserved, code-point sort). -/
theorem extract_table_names_join_query :
    extract_table_names "SELECT id, photo FROM \"Users\" u JOIN orders o ON u.id = o.user_id" =
      "Users_orders" := by decide

/-- C8: the deriver (a pure function of the query text) collects the
regex captures following `FROM`/`JOIN` (case-insensitive), strips
double quotes and keeps only the last dot-separated segment of each
(`clean_table`), and returns the underscore-join of a strictly sorted
(hence deduplicated) list containing exactly those cleaned identifiers;
it returns the literal `"result"` when no identifiers are found. -/
theorem extract_table_names_spec (q : String) :
    (table_captures q = [] → extract_table_names q = "result") ∧
    (table_captures q ≠ [] → ∃ l : List String, l ≠ [] ∧ l.Sorted (· < ·) ∧
      (∀ s, s ∈ l ↔ s ∈ (table_captures q).map clean_table) ∧
      extract_table_names q = String.intercalate "_" l) := by
  constructor
  · intro h
    simp [extract_table_names, h, sorted_set]
  · intro h
    have hne : sorted_set ((table_captures q).map clean_table) ≠ [] := by
      match hc : table_captures q with
      | [] => exact absurd hc h
      | t :: ts =>
          intro hnil
          have hmem : clean_table t ∈ sorted_set (List.map clean_table (t :: ts)) := by
            rw [mem_sorted_set]
            exact List.mem_map_of_mem _ (List.mem_cons_self t ts)
          rw [hnil] at hmem
          exact absurd hmem (List.not_mem_nil _)
    refine ⟨sorted_set ((table_captures q).map clean_table), hne, sorted_sorted_set _,
      fun s => mem_sorted_set s _, ?_⟩
    have hE : (sorted_set ((table_captures q).map clean_table)).isEmpty = false := by
      cases hLc : sorted_set ((table_captures q).map clean_table) with
      | nil => exact absurd hLc hne
      | cons a as => rfl
    simp only [extract_table_names, hE, Bool.false_eq_true, if_false]

/-- C8 witness: a query without `FROM`/`JOIN` identifiers yields the
literal `result`. -/
theorem extract_table_names_spec_witness :
    table_captures "SELECT 1" = [] ∧ extract_table_names "SELECT 1" = "result" :=
  ⟨by decide, (extract_table_names_spec "SELECT 1").1 (by decide)⟩

/-! ## Lemmas about fetch and export -/

/-- The cell loop `exportCells` never raises and yields one string per cell. -/
lemma exportCells_ok (b64 : B64) (toks : Nat → String) (cols : List String) :
    ∀ (vs : List Value) (idx k : Nat) (fs : FS), ∃ line fs' k',
      exportCells b64 toks cols vs idx k fs = Except.ok (line, fs', k') ∧
      line.length = vs.length := by
  intro vs
  induction vs with
  | nil => intro idx k fs; exact ⟨[], fs, k, rfl, rfl⟩
  | cons v vt ih =>
      intro idx k fs
      obtain ⟨⟨s, fs1⟩, hpc⟩ := process_cell_ok b64 v (cols.getD idx "") (toks k) fs
      obtain ⟨line, fs2, k2, hrec, hlen⟩ := ih (idx + 1) (k + 1) fs1
      refine ⟨s :: line, fs2, k2, ?_, by simp [hlen]⟩
      unfold exportCells
      rw [hpc]
      dsimp only
      rw [hrec]

/-- The row loop `exportRows` never raises and yields one record per row. -/
lemma exportRows_ok (b64 : B64) (toks : Nat → String) (cols : List String) :
    ∀ (rows : List (List Value)) (k : Nat) (fs : FS), ∃ lines fs' k',
      exportRows b64 toks cols rows k fs = Except.ok (lines, fs', k') ∧
      lines.length = rows.length := by
  intro rows
  induction rows with
  | nil => intro k fs; exact ⟨[], fs, k, rfl, rfl⟩
  | cons row rt ih =>
      intro k fs
      obtain ⟨line, fs1, k1, hc, -⟩ := exportCells_ok b64 toks cols row 0 k fs
      obtain ⟨lines, fs2, k2, hrec, hlen⟩ := ih k1 fs1
      refine ⟨line :: lines, fs2, k2, ?_, by simp [hlen]⟩
      unfold exportRows
      rw [hc]
      dsimp only
      rw [hrec]

/-- C2 counterexample: on a 5001-row result set `fetch_data` performs a
single unbatched `fetchall` returning all 5001 rows at once; that
interaction is not a bounded batch of 5000. -/
theorem fetch_data_not_batched_cex :
    fetch_data db5001 "SELECT x FROM t" =
      Except.ok ((List.replicate 5001 [Value.null], ["id"]), [FetchEvent.fetchall 5001]) ∧
    ¬ (∀ ev ∈ [FetchEvent.fetchall 5001], isBoundedBatch ev = true) := by
  constructor
  · show Except.ok ((cursor5001.rows, cursor5001.description.map Prod.fst),
        [FetchEvent.fetchall cursor5001.rows.length]) =
      Except.ok ((List.replicate 5001 [Value.null], ["id"]), [FetchEvent.fetchall 5001])
    rw [show cursor5001.rows = List.replicate 5001 [Value.null] from rfl,
      List.length_replicate]
    rfl
  · decide

/-- C2 (amended): `fetch_data` retrieves the entire result set with a
single `fetchall` call (no 5000-row batching), and `export_to_csv` then
writes the CSV from that fully materialized list in one pass: header
first, then exactly one record per result row. -/
theorem fetch_all_then_write (db : DB) (q : String) (cur : Cursor) (b64 : B64)
    (toks : Nat → String) (k : Nat) (fs : FS) (h : db q = Except.ok cur) :
    fetch_data db q =
      Except.ok ((cur.rows, cur.description.map Prod.fst),
        [FetchEvent.fetchall cur.rows.length]) ∧
    ∃ body fs' k', export_to_csv b64 toks (cur.description.map Prod.fst) cur.rows k fs =
        Except.ok (cur.description.map Prod.fst :: body, fs', k') ∧
      body.length = cur.rows.length := by
  constructor
  · simp [fetch_data, h]
  · obtain ⟨lines, fs', k', hrec, hlen⟩ :=
      exportRows_ok b64 toks (cur.description.map Prod.fst) cur.rows k fs
    exact ⟨lines, fs', k', by simp [export_to_csv, hrec], hlen⟩

/-- C2 witness: the amended fetch equation at the 5001-row database. -/
theorem fetch_all_then_write_witness :
    fetch_data db5001 "SELECT a FROM t" =
      Except.ok ((cursor5001.rows, cursor5001.description.map Prod.fst),
        [FetchEvent.fetchall cursor5001.rows.length]) :=
  (fetch_all_then_write db5001 "SELECT a FROM t" cursor5001 b64fail toksDef 0 [] rfl).1

/-! ## Lemmas about the job loop -/

/-- A freshly written success status is non-empty. -/
lemma truthy_append_csv (n : String) : truthy (some (n ++ ".csv")) = true := by
  simp only [truthy, bne_iff_ne, ne_eq, decide_eq_true_eq]
  intro h
  have hd := congrArg String.data h
  rw [String.data_append] at hd
  have h4 : (".csv" : String).data = ['.', 'c', 's', 'v'] := rfl
  rw [h4] at hd
  simp at hd

/-- A freshly written error status is non-empty. -/
lemma truthy_error_status (m : String) : truthy (some ("ERROR: " ++ m)) = true := by
  simp only [truthy, bne_iff_ne, ne_eq, decide_eq_true_eq]
  intro h
  have hd := congrArg String.data h
  rw [String.data_append] at hd
  have h7 : ("ERROR: " : String).data = ['E', 'R', 'R', 'O', 'R', ':', ' '] := rfl
  rw [h7] at hd
  simp at hd

/-- An error status is never the string `Processing`. -/
lemma error_ne_processing (m : String) : ("ERROR: " ++ m) ≠ "Processing" := by
  intro h
  have hd := congrArg String.data h
  rw [String.data_append] at hd
  have h7 : ("ERROR: " : String).data = ['E', 'R', 'R', 'O', 'R', ':', ' '] := rfl
  have hp : ("Processing" : String).data =
      ['P', 'r', 'o', 'c', 'e', 's', 's', 'i', 'n', 'g'] := rfl
  rw [h7, hp] at hd
  rw [List.cons_append] at hd
  injection hd with h1 _
  exact absurd h1 (by decide)

/-- A success status is never the string `Processing`. -/
lemma csv_ne_processing (n : String) : (n ++ ".csv") ≠ "Processing" := by
  intro h
  have hd := congrArg (fun s : String => s.data.reverse) h
  simp only [String.data_append, List.reverse_append] at hd
  simp at hd

/-- A pending row has a false skip condition. -/
lemma pending_true_cond (r : JobRow) (hp : pending r = true) :
    (!(truthy r.query) || truthy r.status) = false := by
  unfold pending at hp
  cases hb : (!(truthy r.query) || truthy r.status) with
  | false => rfl
  | true => rw [hb] at hp; simp at hp

/-- A settled row has a true skip condition. -/
lemma pending_false_cond (r : JobRow) (hp : pending r = false) :
    (!(truthy r.query) || truthy r.status) = true := by
  unfold pending at hp
  cases hb : (!(truthy r.query) || truthy r.status) with
  | true => rfl
  | false => rw [hb] at hp; simp at hp

/-- A settled row is skipped: no exporter call, no cell write, no state
change. -/
lemma pending_false_skip (b64 : B64) (toks : Nat → String) (db : DB) (w : World)
    (idx : Nat) (r : JobRow) (h : pending r = false) :
    processRow b64 toks db w idx r = (r, w, []) := by
  unfold processRow
  rw [pending_false_cond r h]
  rfl

/-- A pending row whose query raises is marked with the exception
message and changes nothing else. -/
lemma processRow_pending_error (b64 : B64) (toks : Nat → String) (db : DB) (w : World)
    (idx : Nat) (r : JobRow) (hp : pending r = true) (e : String)
    (hf : fetch_data db (r.query.getD "") = Except.error e) :
    processRow b64 toks db w idx r =
      ({ r with status := some ("ERROR: " ++ e) }, w,
       [Event.statusWrite idx ("ERROR: " ++ e)]) := by
  have hc : (!(truthy r.query) || truthy r.status) = false := pending_true_cond r hp
  simp only [processRow, hc, Bool.false_eq_true, if_false, hf]

/-- A pending row whose query succeeds is exported under the uniquified
derived name and marked `<name>.csv`. -/
lemma processRow_pending_ok (b64 : B64) (toks : Nat → String) (db : DB) (w : World)
    (idx : Nat) (r : JobRow) (hp : pending r = true)
    (res : (List (List Value) × List String) × List FetchEvent)
    (hf : fetch_data db (r.query.getD "") = Except.ok res) :
    ∃ images' tok',
      processRow b64 toks db w idx r =
        ({ r with status := some (get_unique_csv_name w.files
            (extract_table_names (r.query.getD "")) ++ ".csv") },
         { files := get_unique_csv_name w.files (extract_table_names (r.query.getD "")) ::
             w.files,
           images := images', tokCounter := tok' },
         [Event.exportEv (get_unique_csv_name w.files (extract_table_names (r.query.getD ""))),
          Event.statusWrite idx (get_unique_csv_name w.files
            (extract_table_names (r.query.getD "")) ++ ".csv")]) := by
  obtain ⟨⟨data, columns⟩, tr⟩ := res
  obtain ⟨lines, fs', k', he, -⟩ := exportRows_ok b64 toks columns data w.tokCounter w.images
  have he' : export_to_csv b64 toks columns data w.tokCounter w.images =
      Except.ok (columns :: lines, fs', k') := by
    unfold export_to_csv
    rw [he]
  refine ⟨fs', k', ?_⟩
  have hc : (!(truthy r.query) || truthy r.status) = false := pending_true_cond r hp
  simp only [processRow, hc, Bool.false_eq_true, if_false, hf, he']

/-- Case analysis on one loop iteration: skip, error status, or export
plus success status. -/
lemma processRow_elim (b64 : B64) (toks : Nat → String) (db : DB) (w : World)
    (idx : Nat) (r : JobRow) :
    (pending r = false ∧ processRow b64 toks db w idx r = (r, w, [])) ∨
    (pending r = true ∧ ∃ m, processRow b64 toks db w idx r =
      ({ r with status := some ("ERROR: " ++ m) }, w,
       [Event.statusWrite idx ("ERROR: " ++ m)])) ∨
    (pending r = true ∧ ∃ n w', processRow b64 toks db w idx r =
      ({ r with status := some (n ++ ".csv") }, w',
       [Event.exportEv n, Event.statusWrite idx (n ++ ".csv")])) := by
  cases hp : pending r with
  | false => exact Or.inl ⟨rfl, pending_false_skip b64 toks db w idx r hp⟩
  | true =>
      cases hf : fetch_data db (r.query.getD "") with
      | error e =>
          exact Or.inr (Or.inl ⟨rfl, e,
            processRow_pending_error b64 toks db w idx r hp e hf⟩)
      | ok res =>
          obtain ⟨images', tok', heq⟩ := processRow_pending_ok b64 toks db w idx r hp res hf
          exact Or.inr (Or.inr ⟨rfl, _, _, heq⟩)

/-- Unfolding of the loop on a cons cell. -/
lemma runRows_cons (b64 : B64) (toks : Nat → String) (db : DB) (w : World) (idx : Nat)
    (r : JobRow) (rs : List JobRow) :
    runRows b64 toks db w idx (r :: rs) =
      ((processRow b64 toks db w idx r).1 ::
         (runRows b64 toks db (processRow b64 toks db w idx r).2.1 (idx + 1) rs).1,
       (runRows b64 toks db (processRow b64 toks db w idx r).2.1 (idx + 1) rs).2.1,
       (processRow b64 toks db w idx r).2.2 ++
         (runRows b64 toks db (processRow b64 toks db w idx r).2.1 (idx + 1) rs).2.2) := rfl

/-- Unfolding of `main_run` into the loop plus the single final save. -/
lemma main_run_eq (b64 : B64) (toks : Nat → String) (db : DB) (w : World)
    (rows : List JobRow) :
    main_run b64 toks db w rows =
      ((runRows b64 toks db w 2 rows).1, (runRows b64 toks db w 2 rows).2.1,
       (runRows b64 toks db w 2 rows).2.2 ++ [Event.save]) := rfl

/-- After one iteration the row is settled. -/
lemma pending_after (b64 : B64) (toks : Nat → String) (db : DB) (w : World) (idx : Nat)
    (r : JobRow) : pending (processRow b64 toks db w idx r).1 = false := by
  rcases processRow_elim b64 toks db w idx r with ⟨h, he⟩ | ⟨-, m, he⟩ | ⟨-, n, w', he⟩
  · rw [he]; exact h
  · rw [he]
    simp [pending, truthy_error_status]
  · rw [he]
    simp [pending, truthy_append_csv]

/-- A settled row with a query has a non-empty status cell. -/
lemma settled_truthy (r : JobRow) (h : pending r = false) (hq : truthy r.query = true) :
    truthy r.status = true := by
  unfold pending at h
  rw [hq] at h
  simpa using h

/-- The loop fixes a fully settled sheet: no row changes, no state
change, no events. -/
lemma runRows_settled (b64 : B64) (toks : Nat → String) (db : DB) :
    ∀ (rows : List JobRow) (w : World) (idx : Nat),
      (∀ r ∈ rows, pending r = false) → runRows b64 toks db w idx rows = (rows, w, []) := by
  intro rows
  induction rows with
  | nil => intro w idx _; rfl
  | cons r rs ih =>
      intro w idx hall
      have h1 := pending_false_skip b64 toks db w idx r (hall r (List.mem_cons_self r rs))
      rw [runRows_cons, h1, ih w (idx + 1) (fun x hx => hall x (List.mem_cons_of_mem r hx))]
      rfl

/-- Every row output by the loop is settled. -/
lemma runRows_all_settled (b64 : B64) (toks : Nat → String) (db : DB) :
    ∀ (rows : List JobRow) (w : World) (idx : Nat),
      ∀ r' ∈ (runRows b64 toks db w idx rows).1, pending r' = false := by
  intro rows
  induction rows with
  | nil => intro w idx r' hr'; simp [runRows] at hr'
  | cons r rs ih =>
      intro w idx r' hr'
      rw [runRows_cons] at hr'
      rcases List.mem_cons.mp hr' with rfl | h'
      · exact pending_after b64 toks db w idx r
      · exact ih _ (idx + 1) r' h'

/-- Every event the loop emits is an exporter invocation or a terminal
status write (never a save, never a `Processing` write). -/
lemma runRows_events_shape (b64 : B64) (toks : Nat → String) (db : DB) :
    ∀ (rows : List JobRow) (w : World) (idx : Nat),
      ∀ e ∈ (runRows b64 toks db w idx rows).2.2,
        (∃ n, e = Event.exportEv n) ∨
        (∃ i m, e = Event.statusWrite i ("ERROR: " ++ m)) ∨
        (∃ i n, e = Event.statusWrite i (n ++ ".csv")) := by
  intro rows
  induction rows with
  | nil => intro w idx e he; simp [runRows] at he
  | cons r rs ih =>
      intro w idx e he
      rw [runRows_cons] at he
      rcases List.mem_append.mp he with h' | h'
      · rcases processRow_elim b64 toks db w idx r with ⟨-, heq⟩ | ⟨-, m, heq⟩ | ⟨-, n, w', heq⟩
        · rw [heq] at h'
          simp at h'
        · rw [heq] at h'
          have := List.mem_singleton.mp h'
          exact Or.inr (Or.inl ⟨idx, m, this⟩)
        · rw [heq] at h'
          rcases List.mem_cons.mp h' with rfl | h''
          · exact Or.inl ⟨n, rfl⟩
          · exact Or.inr (Or.inr ⟨idx, n, List.mem_singleton.mp h''⟩)
      · exact ih _ (idx + 1) e h'

/-- A fully settled sheet is a fixpoint of the whole run. -/
lemma main_run_settled (b64 : B64) (toks : Nat → String) (db : DB) (w : World)
    (rows : List JobRow) (hall : ∀ r ∈ rows, pending r = false) :
    main_run b64 toks db w rows = (rows, w, [Event.save]) := by
  rw [main_run_eq, runRows_settled b64 toks db rows w 2 hall]
  rfl

/-- C1 counterexample: on a sheet with one pending job that completes,
`main` records no `Processing` status at all and persists the workbook
exactly once (at the very end), although the job made a transition —
refuting \"write Processing and persist immediately before invoking the
Row Exporter, then persist again after the terminal status\". -/
theorem main_run_no_processing_cex :
    (main_run b64fail toksDef dbOk w0 [{ query := some "SELECT 1", status := none }]).2.2 =
      [Event.exportEv "result", Event.statusWrite 2 "result.csv", Event.save] ∧
    (main_run b64fail toksDef dbOk w0
      [{ query := some "SELECT 1", status := none }]).2.2.any isProcessingWrite = false ∧
    ((main_run b64fail toksDef dbOk w0
      [{ query := some "SELECT 1", status := none }]).2.2.filter isSave).length = 1 :=
  ⟨by decide, by decide, by decide⟩

/-- C1 (amended): for every job row with a query and an empty status
cell, the loop invokes the Row Exporter directly — no `Processing`
status is ever written — and then records the terminal status
(`<name>.csv` on success, `ERROR: <message>` on failure) in the cell;
the workbook is persisted exactly once, as the last action of the run,
after all rows. -/
theorem main_run_saves_once_at_end (b64 : B64) (toks : Nat → String) (db : DB)
    (w : World) (rows : List JobRow) :
    (main_run b64 toks db w rows).2.2.filter isSave = [Event.save] ∧
    (main_run b64 toks db w rows).2.2.getLast? = some Event.save ∧
    (main_run b64 toks db w rows).2.2.any isProcessingWrite = false ∧
    (∀ i v, Event.statusWrite i v ∈ (main_run b64 toks db w rows).2.2 →
      (∃ n, v = n ++ ".csv") ∨ (∃ m, v = "ERROR: " ++ m)) ∧
    (∀ r' ∈ (main_run b64 toks db w rows).1,
      truthy r'.query = true → truthy r'.status = true) := by
  have hshape := runRows_events_shape b64 toks db rows w 2
  have hnosave : ∀ e ∈ (runRows b64 toks db w 2 rows).2.2, isSave e = false := by
    intro e he
    rcases hshape e he with ⟨n, rfl⟩ | ⟨i, m, rfl⟩ | ⟨i, n, rfl⟩ <;> rfl
  have hnoproc : ∀ e ∈ (runRows b64 toks db w 2 rows).2.2, isProcessingWrite e = false := by
    intro e he
    rcases hshape e he with ⟨n, rfl⟩ | ⟨i, m, rfl⟩ | ⟨i, n, rfl⟩
    · rfl
    · show (("ERROR: " ++ m) == "Processing") = false
      exact beq_eq_false_iff_ne.mpr (error_ne_processing m)
    · show ((n ++ ".csv") == "Processing") = false
      exact beq_eq_false_iff_ne.mpr (csv_ne_processing n)
  refine ⟨?_, ?_, ?_, ?_, ?_⟩
  · have h1 : (runRows b64 toks db w 2 rows).2.2.filter isSave = [] := by
      rw [List.filter_eq_nil_iff]
      intro a ha
      simp [hnosave a ha]
    rw [main_run_eq, List.filter_append, h1]
    rfl
  · rw [main_run_eq]
    exact List.getLast?_concat _
  · have h2 : (runRows b64 toks db w 2 rows).2.2.any isProcessingWrite = false := by
      rw [List.any_eq_false]
      intro a ha
      simp [hnoproc a ha]
    rw [main_run_eq, List.any_append, h2]
    rfl
  · intro i v hv
    rw [main_run_eq] at hv
    rcases List.mem_append.mp hv with h' | h'
    · rcases hshape _ h' with ⟨n, heq⟩ | ⟨j, m, heq⟩ | ⟨j, n, heq⟩
      · simp at heq
      · injection heq with h1 h2
        exact Or.inr ⟨m, h2⟩
      · injection heq with h1 h2
        exact Or.inl ⟨n, h2⟩
    · have hs := List.mem_singleton.mp h'
      simp at hs
  · intro r' hr' hq
    exact settled_truthy r' (runRows_all_settled b64 toks db rows w 2 r' hr') hq

/-- C1 witness: the amended statement at a concrete completed job. -/
theorem main_run_saves_once_at_end_witness :
    (main_run b64fail toksDef dbOk w0
        [{ query := some "SELECT 1", status := none }]).2.2.filter isSave = [Event.save] ∧
    (main_run b64fail toksDef dbOk w0
        [{ query := some "SELECT 1", status := none }]).2.2.any isProcessingWrite = false :=
  ⟨(main_run_saves_once_at_end b64fail toksDef dbOk w0
      [{ query := some "SELECT 1", status := none }]).1,
   (main_run_saves_once_at_end b64fail toksDef dbOk w0
      [{ query := some "SELECT 1", status := none }]).2.2.1⟩

/-- C3: running the loop a second time over the sheet produced by a
first run (same database, same world) changes nothing: the rows are
returned unchanged, the world is unchanged, and the only event is the
final save — no export, no status write.  Moreover a row with no query
text is never executed in any run. -/
theorem main_run_idempotent (b64 : B64) (toks : Nat → String) (db : DB) (w : World)
    (rows : List JobRow) :
    main_run b64 toks db (main_run b64 toks db w rows).2.1 (main_run b64 toks db w rows).1 =
      ((main_run b64 toks db w rows).1, (main_run b64 toks db w rows).2.1, [Event.save]) ∧
    (∀ (w' : World) (idx : Nat) (r : JobRow), truthy r.query = false →
      processRow b64 toks db w' idx r = (r, w', [])) := by
  constructor
  · exact main_run_settled b64 toks db _ _
      (fun r hr => runRows_all_settled b64 toks db rows w 2 r hr)
  · intro w' idx r h
    apply pending_false_skip
    unfold pending
    rw [h]
    rfl

/-- C3 witness: a row with no query is skipped untouched. -/
theorem main_run_idempotent_witness :
    processRow b64fail toksDef dbOk w0 2 { query := none, status := none } =
      ({ query := none, status := none }, w0, []) :=
  (main_run_idempotent b64fail toksDef dbOk w0 []).2 w0 2 { query := none, status := none } rfl

/-- C4: an exception raised while exporting a single job is caught at
the job boundary: the status cell of the job receives `ERROR: <exception
message>`, nothing else changes, and the loop continues with the
remaining rows exactly as it would have from the same state. -/
theorem job_error_caught_run_continues (b64 : B64) (toks : Nat → String) (db : DB)
    (w : World) (idx : Nat) (q e : String) (rest : List JobRow)
    (hq : truthy (some q) = true) (he : db q = Except.error e) :
    runRows b64 toks db w idx ({ query := some q, status := none } :: rest) =
      (({ query := some q, status := some ("ERROR: " ++ e) } : JobRow) ::
          (runRows b64 toks db w (idx + 1) rest).1,
       (runRows b64 toks db w (idx + 1) rest).2.1,
       Event.statusWrite idx ("ERROR: " ++ e) ::
         (runRows b64 toks db w (idx + 1) rest).2.2) := by
  have hp : pending { query := some q, status := none } = true := by
    simp [pending, truthy] at hq ⊢
    simp [hq]
  have hf : fetch_data db ((({ query := some q, status := none } : JobRow).query).getD "") =
      Except.error e := by
    show fetch_data db q = Except.error e
    unfold fetch_data
    rw [he]
  have hpr := processRow_pending_error b64 toks db w idx
    { query := some q, status := none } hp e hf
  rw [runRows_cons, hpr]
  rfl

/-- C4 witness: a raising query is recorded as `ERROR: boom` and the
run goes on. -/
theorem job_error_caught_run_continues_witness :
    runRows b64fail toksDef dbOk w0 2 [{ query := some "Q1", status := none }] =
      ([{ query := some "Q1", status := some "ERROR: boom" }], w0,
       [Event.statusWrite 2 "ERROR: boom"]) := by
  rw [job_error_caught_run_continues b64fail toksDef dbOk w0 2 "Q1" "boom" []
    (by decide) rfl]
  rfl
